import Mathlib

/-!
Verification of the lm75/pct2075 I2C temperature-sensor driver codec and
configuration logic (`src/asynch.rs`, `tests/tests.rs`, `tests/common/mod.rs`).

The driver's bus transport is external: every operation is modelled as a pure
function from the driver state, the operation's inputs, and the outcome the bus
would report for the (at most one) transaction, to the operation's result, the
successor state and the list of transactions issued.  Rust `f32` temperatures
are modelled as rationals (the validation and codec arithmetic is exact on all
values the driver deals in), `u8`/`u16` machine integers as naturals.

The repository's `conversion` module, `Config`/`BitFlags` definitions and the
per-variant resolution markers live in files that are not part of the provided
source tree (only `src/asynch.rs` and the tests are); those parts are modelled
from the specification, pinned against the byte-exact expectations of the
repository's own tests, and are marked `Modelled from the spec:` below.
-/

namespace Lm75Driver

/-- Register addresses, from `tests/common/mod.rs` (`Register`). -/
def Register.TEMPERATURE : ℕ := 0x00

/-- Configuration register address, from `tests/common/mod.rs`. -/
def Register.CONFIGURATION : ℕ := 0x01

/-- Hysteresis register address, from `tests/common/mod.rs`. -/
def Register.T_HYST : ℕ := 0x02

/-- Overtemperature-shutdown register address, from `tests/common/mod.rs`. -/
def Register.T_OS : ℕ := 0x03

/-- Sample-rate (idle period) register address, from `tests/common/mod.rs`. -/
def Register.T_IDLE : ℕ := 0x04

/-- Modelled from the spec: configuration byte bit layout (§6): bit 0 is the
shutdown flag.  The `BitFlags` constants are declared in repository code that
is not under the provided source tree; the tests (`can_disable` writes byte
`0b0000_0001`) pin this value. -/
def BitFlags.SHUTDOWN : ℕ := 0x01

/-- Modelled from the spec: bit 1 is the comparator/interrupt mode flag;
pinned by test `can_set_os_mode_high` (byte `0b0000_0010`). -/
def BitFlags.COMP_INT : ℕ := 0x02

/-- Modelled from the spec: bit 2 is the OS polarity flag; pinned by test
`can_set_os_polarity_high` (byte `0b0000_0100`). -/
def BitFlags.OS_POLARITY : ℕ := 0x04

/-- Modelled from the spec: bit 3 is the low bit of the two-bit fault-queue
field; pinned by test `can_set_fault_queue_2` (byte `0b0000_1000`). -/
def BitFlags.FAULT_QUEUE0 : ℕ := 0x08

/-- Modelled from the spec: bit 4 is the high bit of the two-bit fault-queue
field; pinned by test `can_set_fault_queue_4` (byte `0b0001_0000`). -/
def BitFlags.FAULT_QUEUE1 : ℕ := 0x10

/-- Modelled from the spec: `Config::with_high` (the bit-flag algebra, §4.1)
forces a flag's bits on, leaving every other bit unchanged. -/
def withHigh (c flag : ℕ) : ℕ := c ||| flag

/-- Modelled from the spec: `Config::with_low` forces a flag's bits off,
leaving every other bit of the 8-bit configuration byte unchanged. -/
def withLow (c flag : ℕ) : ℕ := c &&& (255 ^^^ flag)

/-- Modelled from the spec: `Config::default()` — the default configuration
byte has every flag in its default (cleared) state.  Pinned by the tests:
after `new`, `enable` writes byte `0` and `disable` writes byte `1`. -/
def Config.default : ℕ := 0

/-- Modelled from the spec: the base LM75 variant's resolution mask — a 9-bit
ADC leaves one significant fractional bit, so only the top bit of the
fractional byte is kept (0.5 °C steps). -/
def lm75ResolutionMask : ℕ := 0x80

/-- Modelled from the spec: the PCT2075 variant's resolution mask — an 11-bit
ADC leaves three significant fractional bits (0.125 °C steps). -/
def pct2075ResolutionMask : ℕ := 0xE0

/-- Floor of a rational as an integer, computed from the reduced
numerator/denominator (the denominator is positive, so Euclidean division
of the numerator by it is the floor). -/
def ratFloor (q : ℚ) : ℤ := q.num / (q.den : ℤ)

/-- Modelled from the spec: `conversion::convert_temp_to_register` (§4.2; the
`conversion` module is not under the provided source tree).  The temperature is
scaled to 1/256 °C units, represented as a 16-bit two's-complement value whose
high byte is the signed integer part and whose low byte carries the fraction
left-justified, and the fractional byte is masked to the variant's resolution.
Pinned by the tests: `0.5 ↦ (0b0000_0000, 0b1000_0000)`,
`-55.0 ↦ (0b1100_1001, 0)`, `125.0 ↦ (0b0111_1101, 0)`. -/
def convert_temp_to_register (temp : ℚ) (mask : ℕ) : ℕ × ℕ :=
  let scaled : ℤ := ratFloor (temp * 256)
  let u : ℕ := (scaled % 65536).toNat
  (u / 256, (u % 256) &&& mask)

/-- An 8-bit byte read as a two's-complement signed integer. -/
def toSignedByte (b : ℕ) : ℤ := if b < 128 then (b : ℤ) else (b : ℤ) - 256

/-- Modelled from the spec: `conversion::convert_temp_from_register` (§4.3).
The most-significant byte is the signed two's-complement integer part; the
least-significant byte, masked to the variant's resolution, contributes a
non-negative fraction in 1/256 °C units, added to the integer part. -/
def convert_temp_from_register (msb lsb mask : ℕ) : ℚ :=
  (toSignedByte msb : ℚ) + ((lsb &&& mask : ℕ) : ℚ) / 256

/-- Modelled from the spec: `conversion::convert_sample_rate_to_register`
(§4.4).  Where the spec's prose (`(period / 100) << 1`) contradicts the
repository's own tests, the tests are followed: `can_set_default_sample_rate`,
`can_set_custom_sample_rate` and `can_set_max_sample_rate` pin the register
byte to `period / 100` with no shift (`100 ↦ 0b0000_0001`,
`1500 ↦ 0b0000_1111`, `3100 ↦ 0b0001_1111`). -/
def convert_sample_rate_to_register (period : ℕ) : ℕ := period / 100

/-- Modelled from the spec: `conversion::convert_sample_rate_from_register`
(§4.4).  Where the spec's prose (`(byte >> 1) * 100`) contradicts the
repository's own tests, the tests are followed: `can_read_sample_rate` pins
byte `0b0000_0001` to decode to 100 ms, i.e. the decode is `byte * 100`. -/
def convert_sample_rate_from_register (b : ℕ) : ℕ := b * 100

/-- The sample-rate encoding exactly as the spec's words state it
(`(period / 100) << 1`), kept for comparison with the code's encoding. -/
def sampleRateSpecEncode (period : ℕ) : ℕ := (period / 100) <<< 1

/-- The sample-rate decoding exactly as the spec's words state it
(`(byte >> 1) * 100`), kept for comparison with the code's decoding. -/
def sampleRateSpecDecode (b : ℕ) : ℕ := (b >>> 1) * 100

/-- The two driver error kinds of `Error<E>`: a wrapped transport error or
invalid caller input. -/
inductive Error (E : Type) where
  | I2C (e : E)
  | InvalidInputData
deriving DecidableEq

/-- The outcome the external bus transport reports for a transaction. -/
inductive BusResult (E : Type) where
  | ok
  | err (e : E)
deriving DecidableEq

/-- A bus transaction as issued by the driver: a plain write of bytes, or a
write followed by a read of `len` bytes. -/
inductive Transaction where
  | write (addr : ℕ) (bytes : List ℕ)
  | writeRead (addr : ℕ) (bytes : List ℕ) (len : ℕ)
deriving DecidableEq

/-- The driver state: the device address and the in-memory mirror of the
configuration register (`Lm75 { address, config, .. }`). -/
structure Lm75State where
  address : ℕ
  config : ℕ
deriving DecidableEq

/-- Result of running one driver operation: the returned `Result`, the
successor driver state, and the transactions issued on the bus. -/
structure OpResult (E : Type) (α : Type) where
  result : Except (Error E) α
  state : Lm75State
  txs : List Transaction

/-- `Lm75::new`: construct the driver with the default configuration mirror;
no bus transaction is issued. -/
def new (address : ℕ) : Lm75State :=
  { address := address, config := Config.default }

/-- `Lm75::new_pct2075`: construct the PCT2075 driver with the default
configuration mirror; no bus transaction is issued. -/
def new_pct2075 (address : ℕ) : Lm75State :=
  { address := address, config := Config.default }

/-- `Lm75::write_config`: write the configuration byte to the device and,
only if the bus write succeeded, replace the in-memory mirror with it. -/
def write_config {E : Type} (s : Lm75State) (c : ℕ) (bus : BusResult E) :
    OpResult E Unit :=
  let tx := Transaction.write s.address [Register.CONFIGURATION, c]
  match bus with
  | .ok => ⟨.ok (), { s with config := c }, [tx]⟩
  | .err e => ⟨.error (.I2C e), s, [tx]⟩

/-- `Lm75::enable`: clear the shutdown flag in the configuration. -/
def enable {E : Type} (s : Lm75State) (bus : BusResult E) : OpResult E Unit :=
  write_config s (withLow s.config BitFlags.SHUTDOWN) bus

/-- `Lm75::disable`: set the shutdown flag in the configuration. -/
def disable {E : Type} (s : Lm75State) (bus : BusResult E) : OpResult E Unit :=
  write_config s (withHigh s.config BitFlags.SHUTDOWN) bus

/-- The four admissible fault-queue depths. -/
inductive FaultQueue where
  | _1
  | _2
  | _4
  | _6
deriving DecidableEq

/-- `Lm75::set_fault_queue`: update the two-bit fault-queue field. -/
def set_fault_queue {E : Type} (fq : FaultQueue) (s : Lm75State)
    (bus : BusResult E) : OpResult E Unit :=
  match fq with
  | ._1 => write_config s
      (withLow (withLow s.config BitFlags.FAULT_QUEUE1) BitFlags.FAULT_QUEUE0) bus
  | ._2 => write_config s
      (withHigh (withLow s.config BitFlags.FAULT_QUEUE1) BitFlags.FAULT_QUEUE0) bus
  | ._4 => write_config s
      (withLow (withHigh s.config BitFlags.FAULT_QUEUE1) BitFlags.FAULT_QUEUE0) bus
  | ._6 => write_config s
      (withHigh (withHigh s.config BitFlags.FAULT_QUEUE1) BitFlags.FAULT_QUEUE0) bus

/-- The two OS polarities. -/
inductive OsPolarity where
  | activeLow
  | activeHigh
deriving DecidableEq

/-- `Lm75::set_os_polarity`: update the OS polarity flag. -/
def set_os_polarity {E : Type} (p : OsPolarity) (s : Lm75State)
    (bus : BusResult E) : OpResult E Unit :=
  match p with
  | .activeLow => write_config s (withLow s.config BitFlags.OS_POLARITY) bus
  | .activeHigh => write_config s (withHigh s.config BitFlags.OS_POLARITY) bus

/-- The two OS operation modes. -/
inductive OsMode where
  | comparator
  | interrupt
deriving DecidableEq

/-- `Lm75::set_os_mode`: update the comparator/interrupt mode flag. -/
def set_os_mode {E : Type} (m : OsMode) (s : Lm75State)
    (bus : BusResult E) : OpResult E Unit :=
  match m with
  | .comparator => write_config s (withLow s.config BitFlags.COMP_INT) bus
  | .interrupt => write_config s (withHigh s.config BitFlags.COMP_INT) bus

/-- `Lm75::set_os_temperature`: validate the Celsius value against
[−55, 125], then write the encoded byte pair to the T_OS register.  The
resolution mask stands for the variant's `IC::get_resolution_mask()`. -/
def set_os_temperature {E : Type} (s : Lm75State) (temperature : ℚ)
    (mask : ℕ) (bus : BusResult E) : OpResult E Unit :=
  if temperature < -55 ∨ 125 < temperature then ⟨.error .InvalidInputData, s, []⟩
  else
    let p := convert_temp_to_register temperature mask
    let tx := Transaction.write s.address [Register.T_OS, p.1, p.2]
    match bus with
    | .ok => ⟨.ok (), s, [tx]⟩
    | .err e => ⟨.error (.I2C e), s, [tx]⟩

/-- `Lm75::set_hysteresis_temperature`: validate the Celsius value against
[−55, 125], then write the encoded byte pair to the T_HYST register. -/
def set_hysteresis_temperature {E : Type} (s : Lm75State) (temperature : ℚ)
    (mask : ℕ) (bus : BusResult E) : OpResult E Unit :=
  if temperature < -55 ∨ 125 < temperature then ⟨.error .InvalidInputData, s, []⟩
  else
    let p := convert_temp_to_register temperature mask
    let tx := Transaction.write s.address [Register.T_HYST, p.1, p.2]
    match bus with
    | .ok => ⟨.ok (), s, [tx]⟩
    | .err e => ⟨.error (.I2C e), s, [tx]⟩

/-- `Lm75::set_sample_rate` (PCT2075 only): validate the period, then write
the encoded byte to the T_IDLE register.  The source guard is
`period > 3100 || period % 100 != 0`. -/
def set_sample_rate {E : Type} (s : Lm75State) (period : ℕ)
    (bus : BusResult E) : OpResult E Unit :=
  if 3100 < period ∨ period % 100 ≠ 0 then ⟨.error .InvalidInputData, s, []⟩
  else
    let byte := convert_sample_rate_to_register period
    let tx := Transaction.write s.address [Register.T_IDLE, byte]
    match bus with
    | .ok => ⟨.ok (), s, [tx]⟩
    | .err e => ⟨.error (.I2C e), s, [tx]⟩

/-- `Lm75::read_sample_rate` (PCT2075 only): read one byte from the T_IDLE
register (`data` is the byte the device answers on a successful read) and
decode it to milliseconds. -/
def read_sample_rate {E : Type} (s : Lm75State) (data : ℕ)
    (bus : BusResult E) : OpResult E ℕ :=
  let tx := Transaction.writeRead s.address [Register.T_IDLE] 1
  match bus with
  | .ok => ⟨.ok (convert_sample_rate_from_register data), s, [tx]⟩
  | .err e => ⟨.error (.I2C e), s, [tx]⟩

/-- `Lm75::read_temperature`: read the two temperature-register bytes
(`msb`, `lsb` are what the device answers on a successful read) and decode
them at the variant's resolution mask. -/
def read_temperature {E : Type} (s : Lm75State) (msb lsb : ℕ) (mask : ℕ)
    (bus : BusResult E) : OpResult E ℚ :=
  let tx := Transaction.writeRead s.address [Register.TEMPERATURE] 2
  match bus with
  | .ok => ⟨.ok (convert_temp_from_register msb lsb mask), s, [tx]⟩
  | .err e => ⟨.error (.I2C e), s, [tx]⟩

/-- One of the five configuration-changing operations of the driver surface
(`enable`, `disable`, `set_fault_queue`, `set_os_polarity`, `set_os_mode`),
all of which go through `write_config`. -/
inductive ConfigOp where
  | enableOp
  | disableOp
  | faultQueueOp (fq : FaultQueue)
  | osPolarityOp (p : OsPolarity)
  | osModeOp (m : OsMode)
deriving DecidableEq

/-- Dispatch a configuration-changing operation to its driver function. -/
def runConfigOp {E : Type} (op : ConfigOp) (s : Lm75State) (bus : BusResult E) :
    OpResult E Unit :=
  match op with
  | .enableOp => enable s bus
  | .disableOp => disable s bus
  | .faultQueueOp fq => set_fault_queue fq s bus
  | .osPolarityOp p => set_os_polarity p s bus
  | .osModeOp m => set_os_mode m s bus

/-! ## Helper lemmas -/

theorem ratFloor_eq_floor (q : ℚ) : ratFloor q = ⌊q⌋ := (Rat.floor_def).symm

theorem ratFloor_intCast (m : ℤ) : ratFloor ((m : ℚ)) = m := by
  rw [ratFloor_eq_floor]; exact Int.floor_intCast m

/-- Generic round-trip of the temperature codec: with `unit * d = 256` and a
resolution mask that keeps every multiple of `unit` below 256 intact, any
temperature `k / d` with `k` an integer in the admissible range decodes back
from its encoding. -/
theorem temp_roundtrip_core (mask unit d : ℕ) (hud : unit * d = 256)
    (hmask : ∀ r : ℕ, r < d → unit * r &&& mask = unit * r)
    (k : ℤ) (hk1 : -(55 * (d : ℤ)) ≤ k) (hk2 : k ≤ 125 * (d : ℤ)) :
    convert_temp_from_register
      ((convert_temp_to_register ((k : ℚ) / (d : ℚ)) mask).1)
      ((convert_temp_to_register ((k : ℚ) / (d : ℚ)) mask).2) mask
      = (k : ℚ) / (d : ℚ) := by
  have hd0 : 0 < d := by
    rcases Nat.eq_zero_or_pos d with h | h
    · subst h; simp at hud
    · exact h
  have hu0 : 0 < unit := by
    rcases Nat.eq_zero_or_pos unit with h | h
    · subst h; simp at hud
    · exact h
  have hdzpos : (0 : ℤ) < (d : ℤ) := by exact_mod_cast hd0
  have hdq : (d : ℚ) ≠ 0 := by exact_mod_cast hd0.ne.symm
  have hudq : (unit : ℚ) * (d : ℚ) = 256 := by exact_mod_cast hud
  have hcast : ((k : ℚ) / (d : ℚ)) * 256 = (((unit : ℤ) * k : ℤ) : ℚ) := by
    push_cast
    rw [div_mul_eq_mul_div, div_eq_iff hdq]
    linear_combination (-(k : ℚ)) * hudq
  have h65536 : (65536 : ℤ) = (unit : ℤ) * (256 * (d : ℤ)) := by
    have h : ((unit : ℤ) * (d : ℤ)) = 256 := by exact_mod_cast hud
    calc (65536 : ℤ) = 256 * 256 := by norm_num
    _ = ((unit : ℤ) * (d : ℤ)) * 256 := by rw [h]
    _ = (unit : ℤ) * (256 * (d : ℤ)) := by ring
  set j : ℤ := k % (256 * (d : ℤ)) with hjdef
  have h256d : (0 : ℤ) < 256 * (d : ℤ) := by positivity
  have hj0 : 0 ≤ j := Int.emod_nonneg k h256d.ne.symm
  have hjlt : j < 256 * (d : ℤ) := Int.emod_lt_of_pos k h256d
  set n : ℕ := j.toNat with hndef
  have hjn : (n : ℤ) = j := Int.toNat_of_nonneg hj0
  have hmod : ((unit : ℤ) * k) % 65536 = (unit : ℤ) * j := by
    rw [h65536, Int.mul_emod_mul_of_pos _ _ (by exact_mod_cast hu0)]
  have htoNat : (((unit : ℤ) * k) % 65536).toNat = unit * n := by
    rw [hmod, ← hjn, ← Int.natCast_mul, Int.toNat_natCast]
  have hmsb : unit * n / 256 = n / d := by
    rw [← hud, Nat.mul_div_mul_left _ _ hu0]
  have hlsb : unit * n % 256 &&& mask = unit * (n % d) := by
    rw [← hud, Nat.mul_mod_mul_left, hmask _ (Nat.mod_lt _ hd0)]
  have henc : convert_temp_to_register ((k : ℚ) / (d : ℚ)) mask
      = (n / d, unit * (n % d)) := by
    simp only [convert_temp_to_register, hcast, ratFloor_intCast, htoNat, hmsb, hlsb]
  rw [henc]
  simp only [convert_temp_from_register]
  rw [hmask _ (Nat.mod_lt _ hd0)]
  have hfrac : ((unit * (n % d) : ℕ) : ℚ) / 256 = ((n % d : ℕ) : ℚ) / (d : ℚ) := by
    push_cast
    rw [div_eq_div_iff (by norm_num) hdq]
    linear_combination ((n % d : ℕ) : ℚ) * hudq
  rw [hfrac]
  have hnatsplit : (n / d) * d + n % d = n := by
    rw [mul_comm]; exact Nat.div_add_mod n d
  have hcastn : ((n : ℚ)) = ((n / d : ℕ) : ℚ) * (d : ℚ) + ((n % d : ℕ) : ℚ) := by
    exact_mod_cast hnatsplit.symm
  rcases le_or_lt 0 k with hk0 | hk0
  · have hjk : j = k := by
      rw [hjdef]; exact Int.emod_eq_of_lt hk0 (by linarith)
    have hnk : (n : ℤ) = k := by rw [hjn, hjk]
    have hnle : n ≤ 125 * d := by
      have h : (n : ℤ) ≤ 125 * (d : ℤ) := by rw [hnk]; exact hk2
      exact_mod_cast h
    have hdiv : n / d < 128 := (Nat.div_lt_iff_lt_mul hd0).2 (by omega)
    have hsb : toSignedByte (n / d) = ((n / d : ℕ) : ℤ) := by
      simp [toSignedByte, hdiv]
    rw [hsb]
    have hkq : (k : ℚ) = (n : ℚ) := by exact_mod_cast hnk.symm
    rw [hkq, hcastn]
    simp only [Int.cast_natCast]
    field_simp
  · have hjk : j = k + 256 * (d : ℤ) := by
      rw [hjdef]
      have h1 : (k + 256 * (d : ℤ) * 1) % (256 * (d : ℤ)) = k % (256 * (d : ℤ)) :=
        Int.add_mul_emod_self_left k (256 * (d : ℤ)) 1
      rw [mul_one] at h1
      rw [← h1, Int.emod_eq_of_lt (by linarith) (by linarith)]
    have hnk : (n : ℤ) = k + 256 * (d : ℤ) := by rw [hjn, hjk]
    have hnge : 201 * d ≤ n := by
      have h : 201 * (d : ℤ) ≤ (n : ℤ) := by rw [hnk]; linarith
      exact_mod_cast h
    have h128 : 128 ≤ n / d := (Nat.le_div_iff_mul_le hd0).2 (by omega)
    have hsb : toSignedByte (n / d) = ((n / d : ℕ) : ℤ) - 256 := by
      simp only [toSignedByte]
      rw [if_neg (by omega)]
    rw [hsb]
    have hkq : (k : ℚ) = (n : ℚ) - 256 * (d : ℚ) := by
      have h : ((n : ℚ)) = (k : ℚ) + 256 * (d : ℚ) := by exact_mod_cast hnk
      linarith
    rw [hkq, hcastn]
    simp only [Int.cast_sub, Int.cast_natCast, Int.cast_ofNat]
    field_simp
    ring

/-! ## Claims -/

/-- C1: for every Celsius value in [−55, 125] exactly representable at a
variant's resolution (half degrees for the LM75, eighths of a degree for the
PCT2075), decoding the two-byte register pair produced by encoding it at that
variant's resolution mask yields the value back. -/
theorem temp_codec_roundtrip (t : ℚ) (hlo : -55 ≤ t) (hhi : t ≤ 125) :
    ((∃ k : ℤ, 2 * t = (k : ℚ)) →
      convert_temp_from_register
        ((convert_temp_to_register t lm75ResolutionMask).1)
        ((convert_temp_to_register t lm75ResolutionMask).2)
        lm75ResolutionMask = t) ∧
    ((∃ k : ℤ, 8 * t = (k : ℚ)) →
      convert_temp_from_register
        ((convert_temp_to_register t pct2075ResolutionMask).1)
        ((convert_temp_to_register t pct2075ResolutionMask).2)
        pct2075ResolutionMask = t) := by
  constructor
  · rintro ⟨k, hk⟩
    have ht : t = (k : ℚ) / ((2 : ℕ) : ℚ) := by
      rw [eq_div_iff (by norm_num)]
      push_cast
      linarith
    have hb1 : -(55 * ((2 : ℕ) : ℤ)) ≤ k := by
      have h : (-110 : ℚ) ≤ (k : ℚ) := by linarith
      have h2 : (-110 : ℤ) ≤ k := by exact_mod_cast h
      omega
    have hb2 : k ≤ 125 * ((2 : ℕ) : ℤ) := by
      have h : (k : ℚ) ≤ 250 := by linarith
      have h2 : k ≤ (250 : ℤ) := by exact_mod_cast h
      omega
    rw [ht]
    exact temp_roundtrip_core lm75ResolutionMask 128 2 (by norm_num)
      (by decide) k hb1 hb2
  · rintro ⟨k, hk⟩
    have ht : t = (k : ℚ) / ((8 : ℕ) : ℚ) := by
      rw [eq_div_iff (by norm_num)]
      push_cast
      linarith
    have hb1 : -(55 * ((8 : ℕ) : ℤ)) ≤ k := by
      have h : (-440 : ℚ) ≤ (k : ℚ) := by linarith
      have h2 : (-440 : ℤ) ≤ k := by exact_mod_cast h
      omega
    have hb2 : k ≤ 125 * ((8 : ℕ) : ℤ) := by
      have h : (k : ℚ) ≤ 1000 := by linarith
      have h2 : k ≤ (1000 : ℤ) := by exact_mod_cast h
      omega
    rw [ht]
    exact temp_roundtrip_core pct2075ResolutionMask 32 8 (by norm_num)
      (by decide) k hb1 hb2

/-- Witness for C1 at the concrete representable value −24.5 °C. -/
theorem temp_codec_roundtrip_witness :
    convert_temp_from_register
      ((convert_temp_to_register (-49 / 2 : ℚ) lm75ResolutionMask).1)
      ((convert_temp_to_register (-49 / 2 : ℚ) lm75ResolutionMask).2)
      lm75ResolutionMask = (-49 / 2 : ℚ) ∧
    convert_temp_from_register
      ((convert_temp_to_register (-49 / 2 : ℚ) pct2075ResolutionMask).1)
      ((convert_temp_to_register (-49 / 2 : ℚ) pct2075ResolutionMask).2)
      pct2075ResolutionMask = (-49 / 2 : ℚ) :=
  ⟨(temp_codec_roundtrip (-49 / 2) (by norm_num) (by norm_num)).1
      ⟨-49, by norm_num⟩,
   (temp_codec_roundtrip (-49 / 2) (by norm_num) (by norm_num)).2
      ⟨-196, by norm_num⟩⟩

/-- C2 (failing input): `set_sample_rate(0)` passes the source guard
(`period > 3100 || period % 100 != 0` does not reject 0) and issues a bus
write of byte `0x00` to the T_IDLE register, returning `Ok`, although the
claim (and the function's own doc comment) requires `InvalidInputData` for
periods outside [100, 3100]. -/
theorem set_sample_rate_zero_bug :
    (set_sample_rate (E := Unit) (new_pct2075 0x48) 0 .ok).result = .ok () ∧
    (set_sample_rate (E := Unit) (new_pct2075 0x48) 0 .ok).txs
      = [Transaction.write 0x48 [Register.T_IDLE, 0]] := by
  constructor <;> rfl

/-- C3: both temperature setters return `InvalidInputData` exactly when the
Celsius value is outside [−55, 125]; on that failure no transaction is issued
and the driver state is unchanged; otherwise, with a successful bus write,
they return `Ok`. -/
theorem set_temperature_invalid_iff {E : Type} (s : Lm75State) (t : ℚ)
    (mask : ℕ) (bus : BusResult E) :
    ((set_os_temperature s t mask bus).result = .error .InvalidInputData
      ↔ (t < -55 ∨ 125 < t)) ∧
    ((set_hysteresis_temperature s t mask bus).result = .error .InvalidInputData
      ↔ (t < -55 ∨ 125 < t)) ∧
    ((t < -55 ∨ 125 < t) →
      (set_os_temperature s t mask bus).txs = [] ∧
      (set_os_temperature s t mask bus).state = s ∧
      (set_hysteresis_temperature s t mask bus).txs = [] ∧
      (set_hysteresis_temperature s t mask bus).state = s) ∧
    (¬(t < -55 ∨ 125 < t) →
      (set_os_temperature s t mask (.ok : BusResult E)).result = .ok () ∧
      (set_hysteresis_temperature s t mask (.ok : BusResult E)).result = .ok ()) := by
  by_cases h : t < -55 ∨ 125 < t <;>
    cases bus <;>
      simp [set_os_temperature, set_hysteresis_temperature, h]

/-- Witness for C3 at the out-of-range value 125.5 °C and the in-range
boundary values −55 °C and 125 °C. -/
theorem set_temperature_invalid_iff_witness :
    ((set_os_temperature (E := Unit) (new 0x48) (251/2) lm75ResolutionMask .ok).txs = [] ∧
      (set_os_temperature (E := Unit) (new 0x48) (251/2) lm75ResolutionMask .ok).state = new 0x48 ∧
      (set_hysteresis_temperature (E := Unit) (new 0x48) (251/2) lm75ResolutionMask .ok).txs = [] ∧
      (set_hysteresis_temperature (E := Unit) (new 0x48) (251/2) lm75ResolutionMask .ok).state = new 0x48) ∧
    ((set_os_temperature (E := Unit) (new 0x48) (-55) lm75ResolutionMask .ok).result = .ok () ∧
      (set_hysteresis_temperature (E := Unit) (new 0x48) (-55) lm75ResolutionMask .ok).result = .ok ()) ∧
    ((set_os_temperature (E := Unit) (new 0x48) 125 lm75ResolutionMask .ok).result = .ok () ∧
      (set_hysteresis_temperature (E := Unit) (new 0x48) 125 lm75ResolutionMask .ok).result = .ok ()) :=
  ⟨(set_temperature_invalid_iff (new 0x48) (251/2) lm75ResolutionMask .ok).2.2.1
      (Or.inr (by norm_num)),
   (set_temperature_invalid_iff (new 0x48) (-55) lm75ResolutionMask .ok).2.2.2
      (by norm_num),
   (set_temperature_invalid_iff (new 0x48) 125 lm75ResolutionMask .ok).2.2.2
      (by norm_num)⟩

/-- C4: every configuration-changing operation leaves the in-memory mirror at
its previous value when the bus write fails, and replaces it with exactly the
byte written to the configuration register when the bus write succeeds. -/
theorem config_mirror_transactional {E : Type} (op : ConfigOp) (s : Lm75State) :
    (∀ e : E, (runConfigOp op s (.err e)).state = s) ∧
    (∃ b : ℕ,
      (runConfigOp op s (.ok : BusResult E)).txs
        = [Transaction.write s.address [Register.CONFIGURATION, b]] ∧
      (runConfigOp op s (.ok : BusResult E)).state.config = b ∧
      ∀ e : E, (runConfigOp op s (.err e)).txs
        = [Transaction.write s.address [Register.CONFIGURATION, b]]) := by
  cases op with
  | enableOp => exact ⟨fun e => rfl, _, rfl, rfl, fun e => rfl⟩
  | disableOp => exact ⟨fun e => rfl, _, rfl, rfl, fun e => rfl⟩
  | faultQueueOp fq => cases fq <;> exact ⟨fun e => rfl, _, rfl, rfl, fun e => rfl⟩
  | osPolarityOp p => cases p <;> exact ⟨fun e => rfl, _, rfl, rfl, fun e => rfl⟩
  | osModeOp m => cases m <;> exact ⟨fun e => rfl, _, rfl, rfl, fun e => rfl⟩

/-- C10: both constructors initialise the in-memory configuration mirror to
the default byte (all flags cleared, value 0) without issuing any bus write,
so a first `enable` writes byte 0 and a first `disable` writes byte 1. -/
theorem new_config_mirror_default (address : ℕ) :
    (new address).config = Config.default ∧
    (new_pct2075 address).config = Config.default ∧
    Config.default = 0 ∧
    (enable (E := Unit) (new address) .ok).txs
      = [Transaction.write address [Register.CONFIGURATION, 0]] ∧
    (disable (E := Unit) (new address) .ok).txs
      = [Transaction.write address [Register.CONFIGURATION, 1]] ∧
    (enable (E := Unit) (new_pct2075 address) .ok).txs
      = [Transaction.write address [Register.CONFIGURATION, 0]] ∧
    (disable (E := Unit) (new_pct2075 address) .ok).txs
      = [Transaction.write address [Register.CONFIGURATION, 1]] := by
  refine ⟨rfl, rfl, rfl, ?_, ?_, ?_, ?_⟩ <;>
    simp [new, new_pct2075, enable, disable, write_config, withLow, withHigh,
      Config.default, BitFlags.SHUTDOWN]

set_option maxRecDepth 8192 in
/-- C5: from every starting configuration byte, `set_fault_queue` with depth
1, 2, 4 or 6 produces a configuration byte whose two-bit field at positions
3–4 is `00`, `01`, `10`, `11` respectively, leaving every bit outside
positions 3–4 identical to the starting byte. -/
theorem set_fault_queue_bits {E : Type} (s : Lm75State) (h : s.config < 256) :
    ((set_fault_queue (E := E) ._1 s .ok).state.config >>> 3) &&& 3 = 0 ∧
    ((set_fault_queue (E := E) ._2 s .ok).state.config >>> 3) &&& 3 = 1 ∧
    ((set_fault_queue (E := E) ._4 s .ok).state.config >>> 3) &&& 3 = 2 ∧
    ((set_fault_queue (E := E) ._6 s .ok).state.config >>> 3) &&& 3 = 3 ∧
    (set_fault_queue (E := E) ._1 s .ok).state.config &&& 0xE7 = s.config &&& 0xE7 ∧
    (set_fault_queue (E := E) ._2 s .ok).state.config &&& 0xE7 = s.config &&& 0xE7 ∧
    (set_fault_queue (E := E) ._4 s .ok).state.config &&& 0xE7 = s.config &&& 0xE7 ∧
    (set_fault_queue (E := E) ._6 s .ok).state.config &&& 0xE7 = s.config &&& 0xE7 := by
  obtain ⟨a, c⟩ := s
  simp only [set_fault_queue, write_config, withHigh, withLow] at h ⊢
  revert c
  decide

/-- Witness for C5 at the starting configuration byte `0b1010_0101`. -/
theorem set_fault_queue_bits_witness :
    ((set_fault_queue (E := Unit) ._2 ⟨0x48, 0xA5⟩ .ok).state.config >>> 3) &&& 3 = 1 :=
  (set_fault_queue_bits (E := Unit) ⟨0x48, 0xA5⟩ (by decide)).2.1

/-- C9 (counterexample to the claim as stated): starting from the default
configuration (shutdown bit clear), `enable` then `disable` leaves the
shutdown bit set, not restored to its prior value. -/
theorem enable_disable_not_restoring :
    ¬((disable (E := Unit) (enable (E := Unit) (new 0x48) .ok).state .ok).state.config &&& 1
        = (new 0x48).config &&& 1) := by
  decide

set_option maxRecDepth 8192 in
/-- C9 (amended): from every starting configuration byte, `enable` and
`disable` each change only the shutdown bit; after `enable` then `disable`
the shutdown bit is set, after `disable` then `enable` it is clear, with all
other bits unchanged across either sequence; the starting byte is fully
restored exactly when its shutdown bit matches the final operation; and each
operation is idempotent. -/
theorem shutdown_toggle_effects {E : Type} (s : Lm75State) (h : s.config < 256) :
    ((enable (E := E) s .ok).state.config >>> 1 = s.config >>> 1) ∧
    ((disable (E := E) s .ok).state.config >>> 1 = s.config >>> 1) ∧
    ((disable (E := E) (enable (E := E) s .ok).state .ok).state.config >>> 1
      = s.config >>> 1) ∧
    ((disable (E := E) (enable (E := E) s .ok).state .ok).state.config &&& 1 = 1) ∧
    ((enable (E := E) (disable (E := E) s .ok).state .ok).state.config >>> 1
      = s.config >>> 1) ∧
    ((enable (E := E) (disable (E := E) s .ok).state .ok).state.config &&& 1 = 0) ∧
    (s.config &&& 1 = 1 →
      (disable (E := E) (enable (E := E) s .ok).state .ok).state.config = s.config) ∧
    (s.config &&& 1 = 0 →
      (enable (E := E) (disable (E := E) s .ok).state .ok).state.config = s.config) ∧
    ((enable (E := E) (enable (E := E) s .ok).state .ok).state.config
      = (enable (E := E) s .ok).state.config) ∧
    ((disable (E := E) (disable (E := E) s .ok).state .ok).state.config
      = (disable (E := E) s .ok).state.config) := by
  obtain ⟨a, c⟩ := s
  simp only [enable, disable, write_config, withHigh, withLow] at h ⊢
  revert c
  decide

/-- Witness for C9 at the starting configuration byte `0b1010_0101`, whose
shutdown bit is set: `enable` then `disable` restores it exactly. -/
theorem shutdown_toggle_effects_witness :
    (disable (E := Unit) (enable (E := Unit) ⟨0x48, 0xA5⟩ .ok).state .ok).state.config
      = (0xA5 : ℕ) :=
  (shutdown_toggle_effects (E := Unit) ⟨0x48, 0xA5⟩ (by decide)).2.2.2.2.2.2.1 (by decide)

/-- C6 (counterexample to the claim as stated): the device byte
`0b00000001` decodes to 100 ms (as the repository's own test pins), not to
`(1 >> 1) * 100 = 0` as the claimed formula states. -/
theorem read_sample_rate_spec_formula_false :
    ¬((read_sample_rate (E := Unit) (new_pct2075 0x48) 1 .ok).result
        = .ok (sampleRateSpecDecode 1)) := by
  intro h
  simp [read_sample_rate, convert_sample_rate_from_register,
    sampleRateSpecDecode] at h

/-- C6 (amended): `read_sample_rate` decodes any register byte `b` to
`b * 100` milliseconds, totally and deterministically, with no error
condition other than transport failure. -/
theorem read_sample_rate_decode_total {E : Type} (s : Lm75State) (b : ℕ)
    (_hb : b < 256) :
    (read_sample_rate s b (.ok : BusResult E)).result = .ok (b * 100) ∧
    ∀ e : E, (read_sample_rate s b (.err e)).result = .error (.I2C e) := by
  exact ⟨rfl, fun e => rfl⟩

/-- Witness for C6 at register byte 1 (decodes to 100 ms). -/
theorem read_sample_rate_decode_total_witness :
    (read_sample_rate (E := Unit) (new_pct2075 0x48) 1 .ok).result = .ok 100 :=
  (read_sample_rate_decode_total (new_pct2075 0x48) 1 (by decide)).1

/-- C7 (counterexample to the claim as stated): `set_sample_rate(100)` writes
register byte `0b00000001` (as the repository's own test pins), not
`(100 / 100) << 1 = 2` as the claimed formula states. -/
theorem set_sample_rate_spec_formula_false :
    ¬((set_sample_rate (E := Unit) (new_pct2075 0x48) 100 .ok).txs
        = [Transaction.write 0x48 [Register.T_IDLE, sampleRateSpecEncode 100]]) := by
  decide

/-- C7 (amended): for every period the driver accepts, the register byte
written is `period / 100` (no shift); in particular the encodings of 100,
1500 and 3100 ms are `0b00000001`, `0b00001111` and `0b00011111`. -/
theorem set_sample_rate_encode_byte {E : Type} (s : Lm75State) (p : ℕ)
    (hp1 : p ≤ 3100) (hp2 : p % 100 = 0) :
    (set_sample_rate s p (.ok : BusResult E)).txs
      = [Transaction.write s.address [Register.T_IDLE, p / 100]] ∧
    convert_sample_rate_to_register 100 = 0b00000001 ∧
    convert_sample_rate_to_register 1500 = 0b00001111 ∧
    convert_sample_rate_to_register 3100 = 0b00011111 := by
  have hg : ¬(3100 < p ∨ p % 100 ≠ 0) := by omega
  refine ⟨?_, by decide, by decide, by decide⟩
  simp [set_sample_rate, convert_sample_rate_to_register, hg]

/-- Witness for C7 at the accepted period 1500 ms. -/
theorem set_sample_rate_encode_byte_witness :
    (set_sample_rate (E := Unit) (new_pct2075 0x48) 1500 .ok).txs
      = [Transaction.write 0x48 [Register.T_IDLE, 15]] :=
  (set_sample_rate_encode_byte (new_pct2075 0x48) 1500 (by decide) (by decide)).1

/-- C8: the byte pair `(0b1110_0111, 0b1010_0101)` decodes strictly between
−24.6 and −24.4 at the LM75 mask and strictly between −24.4 and −24.3 at the
PCT2075 mask; and for any bytes and mask the fractional contribution is added
as a non-negative quantity to the signed integer part. -/
theorem negative_temp_decode :
    ((-246/10 : ℚ) < convert_temp_from_register 0b11100111 0b10100101 lm75ResolutionMask ∧
      convert_temp_from_register 0b11100111 0b10100101 lm75ResolutionMask < (-244/10 : ℚ)) ∧
    ((-244/10 : ℚ) < convert_temp_from_register 0b11100111 0b10100101 pct2075ResolutionMask ∧
      convert_temp_from_register 0b11100111 0b10100101 pct2075ResolutionMask < (-243/10 : ℚ)) ∧
    ∀ msb lsb mask : ℕ, (toSignedByte msb : ℚ) ≤ convert_temp_from_register msb lsb mask := by
  have h1 : (0b10100101 &&& lm75ResolutionMask : ℕ) = 128 := by decide
  have h2 : (0b10100101 &&& pct2075ResolutionMask : ℕ) = 160 := by decide
  have h3 : toSignedByte 0b11100111 = -25 := by decide
  refine ⟨⟨?_, ?_⟩, ⟨?_, ?_⟩, ?_⟩
  · norm_num [convert_temp_from_register, h1, h3]
  · norm_num [convert_temp_from_register, h1, h3]
  · norm_num [convert_temp_from_register, h2, h3]
  · norm_num [convert_temp_from_register, h2, h3]
  · intro msb lsb mask
    simp only [convert_temp_from_register]
    have h : (0 : ℚ) ≤ ((lsb &&& mask : ℕ) : ℚ) / 256 := by positivity
    linarith

end Lm75Driver
